import Mathlib

/-
Verification of the coin-fairness SVI notebook (messiest/pyro-practice).
Shallow embedding: Python floats are modelled as real numbers; the pyro
trace log-density semantics of `pyro.sample` statements is made explicit.
-/

/-- Embeds cell 11 of the notebook: `inferred_mean = alpha_q / (alpha_q + beta_q)`. -/
noncomputable def inferred_mean (alpha_q beta_q : ℝ) : ℝ :=
  alpha_q / (alpha_q + beta_q)

/-- Embeds cell 12, first line: `factor = beta_q / (alpha_q * (1.0 + alpha_q + beta_q))`. -/
noncomputable def factor (alpha_q beta_q : ℝ) : ℝ :=
  beta_q / (alpha_q * (1 + alpha_q + beta_q))

/-- Embeds cell 12, second line: `inferred_std = inferred_mean * math.sqrt(factor)`. -/
noncomputable def inferred_std (alpha_q beta_q : ℝ) : ℝ :=
  inferred_mean alpha_q beta_q * Real.sqrt (factor alpha_q beta_q)

/-- Spec-side definition for the refinement claim C1: the Beta-distribution
variance `(alpha_q * beta_q) / ((alpha_q + beta_q)^2 * (alpha_q + beta_q + 1))`,
written from the spec's formula, to be compared with the code's simplified form. -/
noncomputable def specBetaVariance (alpha_q beta_q : ℝ) : ℝ :=
  alpha_q * beta_q / ((alpha_q + beta_q) ^ 2 * (alpha_q + beta_q + 1))

/-- The prior hyperparameter `alpha0 = torch.tensor(10.)` from the model. -/
def alpha0 : ℝ := 10

/-- The prior hyperparameter `beta0 = torch.tensor(10.)` from the model. -/
def beta0 : ℝ := 10

/-- Log-density of the Beta(a, b) distribution at x, the density pyro attaches
to the `pyro.sample("latent_fairness", dist.Beta(alpha0, beta0))` site. -/
noncomputable def logBetaPdf (a b x : ℝ) : ℝ :=
  (a - 1) * Real.log x + (b - 1) * Real.log (1 - x)
    - (Real.log (Real.Gamma a) + Real.log (Real.Gamma b) - Real.log (Real.Gamma (a + b)))

/-- Log-mass of Bernoulli(f) at observation x, the density pyro attaches to an
observed `pyro.sample("obs_i", dist.Bernoulli(f), obs=data[i])` site. -/
noncomputable def logBernoulliPmf (f x : ℝ) : ℝ :=
  x * Real.log f + (1 - x) * Real.log (1 - f)

/-- Trace log-density of the notebook's `model(data)` at latent value f:
the Beta prior site contributes its log-density at f, then the loop
`for i, j in enumerate(data): pyro.sample("obs_i", dist.Bernoulli(f), obs=data[i])`
accumulates one Bernoulli log-mass per observation, in order. -/
noncomputable def modelLogProb (f : ℝ) (data : List ℝ) : ℝ :=
  data.enum.foldl (fun acc p => acc + logBernoulliPmf f p.2) (logBetaPdf alpha0 beta0 f)

/-- The mutable state of the pyro param store for this notebook.
Modelled from the spec: pyro stores each positivity-constrained parameter as an
unconstrained real (the constrained value is recovered through exp); that
transform lives in the external library, so it is embedded per the spec's
"optimizing in an unconstrained transformed space and mapping back". -/
structure ParamState where
  ualpha : ℝ
  ubeta : ℝ

/-- Constrained value of the variational parameter `alpha_q`. -/
noncomputable def alphaQ (s : ParamState) : ℝ := Real.exp s.ualpha

/-- Constrained value of the variational parameter `beta_q`. -/
noncomputable def betaQ (s : ParamState) : ℝ := Real.exp s.ubeta

/-- Initial param store state: `pyro.param("alpha_q", torch.tensor(15.0), constraint=positive)`
and likewise for `beta_q`, i.e. both constrained values start at 15.0. -/
noncomputable def initParams : ParamState := ⟨Real.log 15, Real.log 15⟩

/-- Embeds the optimization loop `for step in tnrange(n_steps): svi.step(data)`.
The effect of one `svi.step` on the param store is an arbitrary update in the
unconstrained space (the gradient computation lives in the external engine);
the second component counts how many steps were executed. -/
noncomputable def sviRun (update : Nat → ParamState → ParamState) (n_steps : Nat) :
    ParamState × Nat :=
  (List.range n_steps).foldl (fun sc step => (update step sc.1, sc.2 + 1)) (initParams, 0)

/-- The param store read by the post-processing cells (`alpha_q`, `beta_q`). -/
structure ParamStore where
  alpha_q : ℝ
  beta_q : ℝ

/-- The posterior-summary computation of cells 11 and 12 as a state-passing
evaluation: it reads `alpha_q` and `beta_q` from the store, returns the
(mean, std) pair, and hands the store back. -/
noncomputable def summarize (ps : ParamStore) : (ℝ × ℝ) × ParamStore :=
  ((inferred_mean ps.alpha_q ps.beta_q, inferred_std ps.alpha_q ps.beta_q), ps)

/-- Embeds the checkpoint notebook's observation vector:
`data = torch.zeros(1000); data[:600] = torch.ones(600)`. -/
noncomputable def checkpointData : List ℝ :=
  (List.range 1000).map (fun i => if i < 600 then (1 : ℝ) else 0)

/-- The indices produced by one draw of the subsampling plate
`pyro.iarange('data_loop', size=100, subsample_size=50)`: 50 indices, each
drawn from range(100), embedded as an arbitrary function into Fin 100. -/
def plateIndices (draw : Fin 50 → Fin 100) : List Nat :=
  (List.finRange 50).map (fun k => (draw k).val)

/-- Embeds `data.index_select(0, ind)`: the entries of l at the given indices. -/
noncomputable def indexSelect (l : List ℝ) (ind : List Nat) : List ℝ :=
  ind.map (fun i => l.getD i 0)

/- ---------------- helper lemmas ---------------- -/

/-- Folding the observation loop from any starting index and accumulator adds
exactly the sum of the per-observation log-masses. -/
theorem foldl_add_enumFrom (g : ℝ → ℝ) :
    ∀ (l : List ℝ) (n : Nat) (init : ℝ),
      ((l.enumFrom n).foldl (fun acc p => acc + g p.2) init) = init + (l.map g).sum
  | [], _, init => by simp
  | x :: xs, n, init => by
      have ih := foldl_add_enumFrom g xs (n + 1) (init + g x)
      simp only [List.enumFrom, List.foldl, List.map, List.sum_cons] at ih ⊢
      rw [ih]; ring

/-- The step counter of the optimization fold advances by the length of the list. -/
theorem foldl_count (update : Nat → ParamState → ParamState) :
    ∀ (l : List Nat) (s : ParamState) (c : Nat),
      ((l.foldl (fun sc step => (update step sc.1, sc.2 + 1)) (s, c)).2 = c + l.length)
  | [], _, _ => by simp
  | x :: xs, s, c => by
      have ih := foldl_count update xs (update x s) (c + 1)
      simp only [List.foldl, List.length_cons] at ih ⊢
      rw [ih]; omega

/-- Entry i of the checkpoint observation vector is 1 below index 600 and 0 above. -/
theorem checkpointData_getD (i : Nat) (h : i < 1000) :
    checkpointData.getD i 0 = if i < 600 then (1 : ℝ) else 0 := by
  unfold checkpointData
  rw [List.getD_eq_getElem?_getD, List.getElem?_map, List.getElem?_range h]
  simp

/- ---------------- claims ---------------- -/

/-- Claim C1: for alpha_q, beta_q > 0 the code's simplified standard-deviation
expression `inferred_mean * sqrt(beta_q / (alpha_q * (1 + alpha_q + beta_q)))`
equals the square root of the Beta variance
`alpha_q * beta_q / ((alpha_q + beta_q)^2 * (alpha_q + beta_q + 1))`. -/
theorem c1_std_eq_sqrt_variance (a b : ℝ) (ha : 0 < a) (hb : 0 < b) :
    inferred_std a b = Real.sqrt (specBetaVariance a b) := by
  have hab : (0 : ℝ) < a + b := by linarith
  have h1 : (0 : ℝ) < 1 + a + b := by linarith
  have hm : 0 ≤ inferred_mean a b := le_of_lt (div_pos ha hab)
  have key : inferred_mean a b ^ 2 * factor a b = specBetaVariance a b := by
    unfold inferred_mean factor specBetaVariance
    field_simp
    ring
  calc inferred_std a b
      = Real.sqrt (inferred_mean a b ^ 2) * Real.sqrt (factor a b) := by
        rw [Real.sqrt_sq hm]; rfl
    _ = Real.sqrt (inferred_mean a b ^ 2 * factor a b) :=
        (Real.sqrt_mul (sq_nonneg _) _).symm
    _ = Real.sqrt (specBetaVariance a b) := by rw [key]

/-- Witness for C1 at alpha_q = beta_q = 15. -/
theorem c1_std_eq_sqrt_variance_witness :
    inferred_std 15 15 = Real.sqrt (specBetaVariance 15 15) :=
  c1_std_eq_sqrt_variance 15 15 (by norm_num) (by norm_num)

/-- Claim C2: for fairness in (0,1) and any observation list, the model's trace
log-density equals the Beta(alpha0, beta0) log-density of the fairness plus the
sum of the Bernoulli log-masses of the observations, with alpha0 = beta0 = 10. -/
theorem c2_model_decomposition (f : ℝ) (h0 : 0 < f) (h1 : f < 1) (data : List ℝ) :
    modelLogProb f data
        = logBetaPdf alpha0 beta0 f + (data.map (logBernoulliPmf f)).sum
      ∧ alpha0 = 10 ∧ beta0 = 10 := by
  refine ⟨?_, rfl, rfl⟩
  unfold modelLogProb
  exact foldl_add_enumFrom (logBernoulliPmf f) data 0 (logBetaPdf alpha0 beta0 f)

/-- Witness for C2 with fairness 1/2 and observations [1, 0]. -/
theorem c2_model_decomposition_witness :
    modelLogProb (1 / 2) [1, 0]
        = logBetaPdf alpha0 beta0 (1 / 2)
            + (([1, 0] : List ℝ).map (logBernoulliPmf (1 / 2))).sum
      ∧ alpha0 = 10 ∧ beta0 = 10 :=
  c2_model_decomposition (1 / 2) (by norm_num) (by norm_num) [1, 0]

/-- Claim C3: the constrained variational parameters start at 15.0 each, and at
every reachable state of the optimization loop, whatever the per-step updates,
both remain strictly positive. -/
theorem c3_params_positive (update : Nat → ParamState → ParamState) (n : Nat) :
    alphaQ initParams = 15 ∧ betaQ initParams = 15
      ∧ 0 < alphaQ (sviRun update n).1 ∧ 0 < betaQ (sviRun update n).1 := by
  refine ⟨?_, ?_, Real.exp_pos _, Real.exp_pos _⟩
  · exact Real.exp_log (by norm_num)
  · exact Real.exp_log (by norm_num)

/-- Claim C4: for alpha_q, beta_q > 0 the posterior mean lies strictly in (0,1). -/
theorem c4_mean_in_open_unit_interval (a b : ℝ) (ha : 0 < a) (hb : 0 < b) :
    0 < inferred_mean a b ∧ inferred_mean a b < 1 := by
  have hab : (0 : ℝ) < a + b := by linarith
  constructor
  · exact div_pos ha hab
  · unfold inferred_mean
    rw [div_lt_one hab]
    linarith

/-- Witness for C4 at alpha_q = beta_q = 15. -/
theorem c4_mean_in_open_unit_interval_witness :
    0 < inferred_mean 15 15 ∧ inferred_mean 15 15 < 1 :=
  c4_mean_in_open_unit_interval 15 15 (by norm_num) (by norm_num)

/-- Claim C5: the posterior mean is strictly increasing in alpha_q with beta_q
fixed, and strictly decreasing in beta_q with alpha_q fixed. -/
theorem c5_mean_monotone (a1 a2 b c1 c2 d : ℝ)
    (ha1 : 0 < a1) (hb : 0 < b) (h12 : a1 < a2)
    (hd : 0 < d) (hc1 : 0 < c1) (hc12 : c1 < c2) :
    inferred_mean a1 b < inferred_mean a2 b
      ∧ inferred_mean d c2 < inferred_mean d c1 := by
  constructor
  · unfold inferred_mean
    rw [div_lt_div_iff₀ (by linarith) (by linarith)]
    nlinarith [mul_lt_mul_of_pos_right h12 hb]
  · unfold inferred_mean
    exact div_lt_div_of_pos_left hd (by linarith) (by linarith)

/-- Witness for C5: increasing from 1 to 2 at beta_q = 3, decreasing from 3 to 4
at alpha_q = 5. -/
theorem c5_mean_monotone_witness :
    inferred_mean 1 3 < inferred_mean 2 3 ∧ inferred_mean 5 4 < inferred_mean 5 3 :=
  c5_mean_monotone 1 2 3 3 4 5 (by norm_num) (by norm_num) (by norm_num)
    (by norm_num) (by norm_num) (by norm_num)

/-- Claim C6: when alpha_q = beta_q > 0 the posterior mean is exactly 0.5. -/
theorem c6_symmetric_mean_half (a : ℝ) (ha : 0 < a) : inferred_mean a a = 0.5 := by
  unfold inferred_mean
  rw [div_eq_iff (by linarith : a + a ≠ 0)]
  ring_nf

/-- Witness for C6 at alpha_q = beta_q = 15. -/
theorem c6_symmetric_mean_half_witness : inferred_mean 15 15 = 0.5 :=
  c6_symmetric_mean_half 15 (by norm_num)

/-- Claim C7: the optimization loop executes exactly n_steps iterations of
svi.step and then terminates, for every update behaviour and every step count;
in particular for the 1000-step and 5000-step configurations. -/
theorem c7_fixed_step_count (update : Nat → ParamState → ParamState) (n_steps : Nat) :
    (sviRun update n_steps).2 = n_steps
      ∧ (sviRun update 1000).2 = 1000 ∧ (sviRun update 5000).2 = 5000 := by
  have key : ∀ m : Nat, (sviRun update m).2 = m := by
    intro m
    unfold sviRun
    rw [foldl_count update (List.range m) initParams 0]
    simp
  exact ⟨key n_steps, key 1000, key 5000⟩

/-- Claim C9: the posterior-summary evaluation leaves the param store unchanged,
a second evaluation on the resulting store returns the identical output, and the
output is exactly the (inferred_mean, inferred_std) pair of the stored values. -/
theorem c9_summarize_pure (ps : ParamStore) :
    (summarize ps).2 = ps
      ∧ (summarize (summarize ps).2).1 = (summarize ps).1
      ∧ (summarize ps).1
          = (inferred_mean ps.alpha_q ps.beta_q, inferred_std ps.alpha_q ps.beta_q) :=
  ⟨rfl, rfl, rfl⟩

/-- Claim C10: the checkpoint data vector has 1000 entries, 1.0 below index 600
and 0.0 from 600 on; every index produced by the subsampling plate is below 100,
so every observation the model conditions on equals 1.0 and no zero-valued
entry is ever selected. -/
theorem c10_subsample_sees_only_ones (draw : Fin 50 → Fin 100) :
    checkpointData.length = 1000
      ∧ (∀ i ∈ plateIndices draw, i < 100)
      ∧ (∀ x ∈ indexSelect checkpointData (plateIndices draw), x = 1)
      ∧ (∀ i : Nat, 600 ≤ i → i < 1000 →
          checkpointData.getD i 0 = 0 ∧ i ∉ plateIndices draw) := by
  have hlt : ∀ i ∈ plateIndices draw, i < 100 := by
    intro i hi
    unfold plateIndices at hi
    rcases List.mem_map.mp hi with ⟨k, _, hk⟩
    exact hk ▸ (draw k).isLt
  refine ⟨by simp [checkpointData], hlt, ?_, ?_⟩
  · intro x hx
    unfold indexSelect at hx
    rcases List.mem_map.mp hx with ⟨i, hi, hxi⟩
    have h100 := hlt i hi
    rw [← hxi, checkpointData_getD i (by omega), if_pos (by omega)]
  · intro i h600 h1000
    constructor
    · rw [checkpointData_getD i h1000, if_neg (by omega)]
    · intro hmem
      have := hlt i hmem
      omega
